import Mathlib

/-!
# Verification of the webcam-reso inference loop and renderer

Shallow embedding of the repository's two source files:

* `detect.js` — the `Detector` class: a periodic inference loop driven by
  `requestAnimationFrame` or `setTimeout`, with `start`/`stop` lifecycle,
  an `inferOnce` tick body (precondition check, tensor allocation, async
  model call, decode, draw, scoped disposal), and a `drawBoundingBoxes`
  renderer.
* `main.js` — camera stream session management (`startStream`,
  `applyResolution`, `stopStream`, page-teardown handler).

The loop is modelled as a small-step machine over an explicit event
alphabet (public calls `start`/`stop`, the scheduler firing a previously
registered callback, and settlement of an in-flight asynchronous model
call).  Each event is one synchronous run-to-completion slice of the
single-threaded JavaScript execution: the slice from the top of the
`loop` closure up to the `await` of `model.executeAsync`, and the slice
from that promise settling to the end of the closure.  JavaScript numbers
are modelled as exact rationals `ℚ`.
-/

namespace WebcamReso

/-! ## Detector state

Fields mirror the `Detector` instance fields of `detect.js`
(`_running`, `_rafId`, `_timerId`, `useRAF`), plus the ambient
scheduler and tensor-allocator state the instance interacts with:

* `live` — handles of callbacks registered via `requestAnimationFrame` /
  `setTimeout` that have been neither cancelled nor fired yet;
* `next` — the next fresh handle the scheduler will hand out;
* `inflight` — number of `model.executeAsync` calls currently awaited
  (a tick between its `await` and the promise settling);
* `outstanding` — net count of unreleased intermediate tensors
  (`tf.tidy` keeps exactly the returned `input` tensor; each output
  tensor allocated at resolution is disposed in the same `finally`);
* `modelCalls` — cumulative number of `model.executeAsync` invocations;
* `warnings` — cumulative number of `console.warn` logs emitted by the
  `catch` block of the `loop` closure.
-/
structure DState where
  running : Bool
  rafId : Option ℕ
  timerId : Option ℕ
  useRAF : Bool
  live : List ℕ
  next : ℕ
  inflight : ℕ
  outstanding : ℕ
  modelCalls : ℕ
  warnings : ℕ
  deriving Repr, DecidableEq

/-- How a settled model call plays out inside `inferOnce`:
`executeAsync` resolves and the decode/draw succeeds, resolves but the
decode throws (e.g. an unexpected output shape), or rejects.  In every
case the `finally` block disposes `input` and (when present) all
entries of `outputs`. -/
inductive Settle where
  | resolveOk
  | resolveDecodeErr
  | reject
  deriving Repr, DecidableEq

/-- Events driving the machine: the two public operations, the scheduler
firing callback `h` while the video element reports ready
(`readyState ≥ 2`) or not, and settlement of one in-flight model call. -/
inductive Event where
  | start
  | stop
  | fire (h : ℕ) (videoReady : Bool)
  | complete (r : Settle)
  deriving Repr, DecidableEq

/-- Register the `loop` closure with the scheduler, as in the tail of
`loop` and of `start()`:
`this._rafId = requestAnimationFrame(loop)` when `useRAF`, else
`this._timerId = setTimeout(loop, this.intervalMs)`. -/
def schedule (s : DState) : DState :=
  if s.useRAF then
    { s with live := s.next :: s.live, next := s.next + 1,
             rafId := some s.next }
  else
    { s with live := s.next :: s.live, next := s.next + 1,
             timerId := some s.next }

/-- `start()`: `if (this._running) return; this._running = true;` then
schedule the first tick. -/
def startOp (s : DState) : DState :=
  if s.running then s else schedule { s with running := true }

/-- Cancel the callback registered under handle `h`, if any
(`cancelAnimationFrame` / `clearTimeout`); cancelling an already-fired
or unknown handle is a no-op. -/
def cancel (h : Option ℕ) (l : List ℕ) : List ℕ :=
  match h with
  | some h => l.erase h
  | none => l

/-- `stop()`: clear `_running`, cancel and null out both handles. -/
def stopOp (s : DState) : DState :=
  { s with running := false,
           live := cancel s.timerId (cancel s.rafId s.live),
           rafId := none, timerId := none }

/-- The scheduler fires callback `h`: the synchronous prefix of the
`loop` closure.  If `h` was cancelled (or never existed) nothing runs.
Otherwise: the top-of-loop check `if (!this._running) return;`; then
`inferOnce` either returns at once because
`!this.video || this.video.readyState < 2` (and the loop reschedules),
or draws the frame into the offscreen canvas, allocates the `input`
tensor via `tf.tidy` (net one retained tensor) and calls
`model.executeAsync`, suspending at the `await`. -/
def fireOp (h : ℕ) (videoReady : Bool) (s : DState) : DState :=
  if h ∈ s.live then
    let s := { s with live := s.live.erase h }
    if s.running then
      if videoReady then
        { s with inflight := s.inflight + 1,
                 outstanding := s.outstanding + 1,
                 modelCalls := s.modelCalls + 1 }
      else
        schedule s
    else s
  else s

/-- One awaited `model.executeAsync` promise settles: the rest of
`inferOnce` runs (decode and draw on resolution), the `finally` block
disposes `input` and every delivered output tensor, an error is caught
and logged by the `catch` of `loop` (`console.warn`), and the tail of
`loop` reschedules iff `this._running` is still set. -/
def completeOp (r : Settle) (s : DState) : DState :=
  if s.inflight = 0 then s
  else
    let s := { s with inflight := s.inflight - 1,
                      outstanding := s.outstanding - 1,
                      warnings :=
                        if r = Settle.resolveOk then s.warnings
                        else s.warnings + 1 }
    if s.running then schedule s else s

/-- Dispatch one event. -/
def step (e : Event) (s : DState) : DState :=
  match e with
  | Event.start => startOp s
  | Event.stop => stopOp s
  | Event.fire h v => fireOp h v s
  | Event.complete r => completeOp r s

/-- A freshly constructed `Detector`: `_running = false`,
`_rafId = _timerId = null`, scheduling mode fixed by the `useRAF`
option. -/
def init (useRAF : Bool) : DState :=
  { running := false, rafId := none, timerId := none, useRAF := useRAF,
    live := [], next := 0, inflight := 0, outstanding := 0,
    modelCalls := 0, warnings := 0 }

/-- Run a sequence of events from a state. -/
def run (evs : List Event) (s : DState) : DState :=
  evs.foldl (fun t e => step e t) s

/-! ## The renderer `drawBoundingBoxes`

JavaScript numbers are modelled as exact rationals.  The canvas context
is modelled by the list of drawing commands issued to it, in order;
`console.log` calls are not drawing commands and are omitted. -/

/-- One 2D-context operation issued by `drawBoundingBoxes`. -/
inductive DrawCmd where
  | clearRect (x y w h : ℚ)
  | setStrokeStyle (s : String)
  | setLineWidth (w : ℚ)
  | strokeRect (x y w h : ℚ)
  | setFillStyle (s : String)
  | fillRect (x y w h : ℚ)
  | setFont (s : String)
  | fillText (text : String) (x y : ℚ)
  deriving Repr, DecidableEq

/-- `Math.round`, for the arguments arising here (finite, and modelled
exactly): round half toward positive infinity. -/
def jsRound (q : ℚ) : ℤ := ⌊q + 1 / 2⌋

/-- `Number.prototype.toFixed(1)` on a nonnegative number, over the
exact rational value: one decimal digit, rounding half away from zero. -/
def toFixed1 (q : ℚ) : String :=
  let n : ℤ := ⌊q * 10 + 1 / 2⌋
  toString (n / 10) ++ "." ++ toString (n % 10)

/-- The label string
`` `Class ${Math.round(classId)}: ${(score * 100).toFixed(1)}%` ``. -/
def labelFor (classId score : ℚ) : String :=
  "Class " ++ toString (jsRound classId) ++ ": "
    ++ toFixed1 (score * 100) ++ "%"

/-- The body of the `forEach` for one detection that passed the
threshold: convert the normalized `[ymin, xmin, ymax, xmax]` box to
pixel space with the canvas dimensions `W × H`, stroke the box, fill
the label background (whose width uses `ctx.measureText(label).width`,
supplied by the font-metric function `measure`), and draw the label
text. -/
def drawDetection (measure : String → ℚ) (W H : ℚ)
    (box : ℚ × ℚ × ℚ × ℚ) (score classId : ℚ) : List DrawCmd :=
  let ymin := box.1
  let xmin := box.2.1
  let ymax := box.2.2.1
  let xmax := box.2.2.2
  let x := xmin * W
  let y := ymin * H
  let width := (xmax - xmin) * W
  let height := (ymax - ymin) * H
  let label := labelFor classId score
  let labelY := if y > 20 then y - 5 else y + height + 20
  [DrawCmd.setStrokeStyle "#00ff00",
   DrawCmd.setLineWidth 3,
   DrawCmd.strokeRect x y width height,
   DrawCmd.setFillStyle "rgba(0, 255, 0, 0.8)",
   DrawCmd.fillRect x (labelY - 20) (measure label + 10) 25,
   DrawCmd.setFillStyle "#000000",
   DrawCmd.setFont "14px Arial",
   DrawCmd.fillText label (x + 5) (labelY - 2)]

/-- The `scores.forEach((score, i) => ...)` loop over the parallel
arrays `scores`, `boxes`, `classes` (modelled by simultaneous
recursion over the three lists; the source indexes `boxes[i]` and
`classes[i]`, so the lists are consumed in lockstep), with the
threshold test `score >= 0.7` guarding all drawing for index `i`. -/
def drawLoop (measure : String → ℚ) (W H : ℚ) :
    List ℚ → List (ℚ × ℚ × ℚ × ℚ) → List ℚ → List DrawCmd
  | score :: scores, box :: boxes, classId :: classes =>
      (if 7 / 10 ≤ score then drawDetection measure W H box score classId
       else [])
        ++ drawLoop measure W H scores boxes classes
  | _, _, _ => []

/-- `drawBoundingBoxes(boxes, scores, classes)` on a context whose
canvas measures `W × H`: clear the whole canvas, then draw each
detection whose score passes the fixed `threshold = 0.7`.  (When
`this.canvasContext` is null the method returns without issuing any
command; the model below is the with-context path, selected by
`hasCtx`.) -/
def drawBoundingBoxes (hasCtx : Bool) (measure : String → ℚ) (W H : ℚ)
    (boxes : List (ℚ × ℚ × ℚ × ℚ)) (scores classes : List ℚ) :
    List DrawCmd :=
  if hasCtx then
    DrawCmd.clearRect 0 0 W H :: drawLoop measure W H scores boxes classes
  else []

/-- Is a command a stroked rectangle (the box outline)? -/
def DrawCmd.isStrokeRect : DrawCmd → Bool
  | DrawCmd.strokeRect _ _ _ _ => true
  | _ => false

/-! ## `main.js` stream-session management

The module state of `main.js` holds one `stream` variable.  The model
additionally tracks, for the ambient camera device, which acquired
streams still have unstopped tracks (`unreleased`), identifying each
stream handed out by `getUserMedia` with a fresh number.  Each public
operation is modelled as one step, i.e. invocations do not overlap. -/

structure MState where
  stream : Option ℕ
  unreleased : List ℕ
  nextStream : ℕ
  deriving Repr, DecidableEq

/-- `stopStream()`: if a stream is held, stop all its tracks
(`stream.getTracks().forEach(t => t.stop())`) and null the variable. -/
def stopStream (m : MState) : MState :=
  match m.stream with
  | some k => { m with stream := none, unreleased := m.unreleased.erase k }
  | none => m

/-- `startStream()`: first `stopStream()`, then acquire via
`getUserMedia` (with one constraint-free retry inside the `catch`);
`acquired = false` is the path where both attempts reject, so the
exception propagates with `stream` left null. -/
def startStream (acquired : Bool) (m : MState) : MState :=
  let m := stopStream m
  if acquired then
    { m with stream := some m.nextStream,
             unreleased := m.nextStream :: m.unreleased,
             nextStream := m.nextStream + 1 }
  else m

/-- How `applyResolution()` plays out on a held stream:
`track.applyConstraints` with ideal constraints succeeds, or the exact
retry succeeds, or both fail and the stream is re-acquired via
`startStream`. -/
inductive ApplyCase where
  | idealOk
  | exactOk
  | restart (acquired : Bool)
  deriving Repr, DecidableEq

/-- `applyResolution()`: with no stream, delegate to `startStream`;
otherwise reconfigure the existing track, falling back to a full
restart only when both `applyConstraints` attempts fail.  The
`acquired` argument is used only on paths that reach `getUserMedia`. -/
def applyResolution (c : ApplyCase) (acquired : Bool) (m : MState) :
    MState :=
  match m.stream with
  | none => startStream acquired m
  | some _ =>
    match c with
    | ApplyCase.idealOk => m
    | ApplyCase.exactOk => m
    | ApplyCase.restart acquired2 => startStream acquired2 m

/-- Public operations on the `main.js` module: the Start button, the
resolution-select change handler, the Stop button, and the `pagehide`
teardown handler (which calls `stopStream`). -/
inductive MEvent where
  | start (acquired : Bool)
  | applyRes (c : ApplyCase) (acquired : Bool)
  | stop
  | pagehide
  deriving Repr, DecidableEq

/-- Dispatch one `main.js` operation. -/
def mstep (e : MEvent) (m : MState) : MState :=
  match e with
  | MEvent.start acquired => startStream acquired m
  | MEvent.applyRes c acquired => applyResolution c acquired m
  | MEvent.stop => stopStream m
  | MEvent.pagehide => stopStream m

/-- Module load: `let stream = null;`, no stream ever acquired. -/
def minit : MState := { stream := none, unreleased := [], nextStream := 0 }

/-- Run a sequence of `main.js` operations. -/
def mrun (evs : List MEvent) (m : MState) : MState :=
  evs.foldl (fun t e => mstep e t) m

/-! ## Invariants of the detector machine -/

/-- Invariant over all executions: the unreleased-tensor count equals
the number of in-flight model calls; a scheduling handle is held iff
the running flag is set; and only the field of the constructed
scheduling mode is ever used. -/
def InvU (s : DState) : Prop :=
  s.outstanding = s.inflight ∧
  ((s.rafId ≠ none ∨ s.timerId ≠ none) ↔ s.running = true) ∧
  (s.useRAF = true → s.timerId = none) ∧
  (s.useRAF = false → s.rafId = none)

theorem invU_step {s : DState} (e : Event) (h : InvU s) :
    InvU (step e s) := by
  obtain ⟨h1, h2, h3, h4⟩ := h
  cases e <;>
    simp only [step, startOp, stopOp, fireOp, completeOp, schedule] <;>
    repeat' split
  all_goals
    refine ⟨?_, ?_, ?_, ?_⟩ <;>
      simp_all [InvU]

theorem invU_run {s : DState} (evs : List Event) (h : InvU s) :
    InvU (run evs s) := by
  induction evs generalizing s with
  | nil => exact h
  | cons e es ih => exact ih (invU_step e h)

theorem invU_init (b : Bool) : InvU (init b) := by
  refine ⟨rfl, ?_, ?_, ?_⟩ <;> simp [init]

/-- A well-sequenced trace: `start()` is only invoked while no model
call is in flight (in particular it rules out restarting the detector
while a tick stopped mid-flight is still awaiting its model call). -/
def okTrace : DState → List Event → Bool
  | _, [] => true
  | s, e :: es =>
    ((e ≠ Event.start : Bool) || (s.inflight = 0 : Bool))
      && okTrace (step e s) es

/-- Invariant of well-sequenced executions: at most one tick is either
pending with the scheduler or in flight; every pending handle is the
one recorded in the mode's handle field; and after `stop()` nothing is
pending. -/
def InvG (s : DState) : Prop :=
  s.live.length + s.inflight ≤ 1 ∧
  (∀ h ∈ s.live, s.rafId = some h ∨ s.timerId = some h) ∧
  (s.running = false → s.live = []) ∧
  (s.useRAF = true → s.timerId = none) ∧
  (s.useRAF = false → s.rafId = none)

theorem live_eq_singleton {l : List ℕ} {a : ℕ} (hm : a ∈ l)
    (hl : l.length ≤ 1) : l = [a] := by
  match l, hm with
  | [b], hm =>
    have : a = b := by simpa using hm
    rw [this]
  | b :: c :: t, _ => simp at hl

theorem cancel_both_nil {s : DState}
    (h1 : s.live.length + s.inflight ≤ 1)
    (h2 : ∀ h ∈ s.live, s.rafId = some h ∨ s.timerId = some h) :
    cancel s.timerId (cancel s.rafId s.live) = [] := by
  rcases hl : s.live with _ | ⟨a, t⟩
  · cases s.rafId <;> cases s.timerId <;> simp [cancel]
  · have ht : s.live = [a] :=
      live_eq_singleton (hl ▸ List.mem_cons_self a t) (by omega)
    rw [hl] at ht
    obtain rfl : t = [] := by simpa using ht
    rcases h2 a (hl ▸ List.mem_cons_self a []) with ha | ha
    · simp only [ha, hl]
      cases s.timerId <;> simp [cancel]
    · simp only [ha, hl]
      cases hr : s.rafId with
      | none => simp [cancel]
      | some r =>
        by_cases hra : r = a
        · subst hra
          simp [cancel]
        · simp only [cancel]
          rw [List.erase_cons_tail, List.erase_nil]
          · simp
          · simpa using fun hc => hra hc.symm

theorem invG_step {s : DState} (e : Event) (h : InvG s)
    (hg : e = Event.start → s.inflight = 0) : InvG (step e s) := by
  obtain ⟨h1, h2, h3, h4, h5⟩ := h
  cases e with
  | start =>
    have hz : s.inflight = 0 := hg rfl
    by_cases hr : s.running
    · simpa [step, startOp, hr] using ⟨h1, h2, h3, h4, h5⟩
    · have hl : s.live = [] := h3 (by simpa using hr)
      simp only [step, startOp, hr, Bool.false_eq_true, if_false, schedule]
      by_cases hb : s.useRAF <;> simp_all [InvG]
  | stop =>
    have hnil := cancel_both_nil h1 h2
    simp only [step, stopOp]
    refine ⟨by simp [hnil]; omega, ?_, ?_, ?_, ?_⟩ <;> simp [hnil]
  | fire hh v =>
    by_cases hm : hh ∈ s.live
    · by_cases hr : s.running
      · have hone : s.live = [hh] := live_eq_singleton hm (by omega)
        have herase : s.live.erase hh = [] := by simp [hone]
        by_cases hv : v
        · simp only [step, fireOp, hm, if_true, hr, hv, if_true]
          refine ⟨?_, ?_, by simp [hr], h4, h5⟩
          · simp only [herase, List.length_nil]
            rw [hone] at h1; simp at h1; omega
          · intro h' hmem'
            simp [herase] at hmem'
        · simp only [step, fireOp, hm, if_true, hr, hv, Bool.false_eq_true,
            if_true, if_false, schedule]
          rw [hone] at h1; simp at h1
          by_cases hb : s.useRAF <;> simp_all [InvG, herase]
      · exact absurd hm (by simp [h3 (by simpa using hr)])
    · simpa [step, fireOp, hm] using ⟨h1, h2, h3, h4, h5⟩
  | complete r =>
    by_cases hz : s.inflight = 0
    · simpa [step, completeOp, hz] using ⟨h1, h2, h3, h4, h5⟩
    · have hl : s.live = [] := by
        rcases hll : s.live with _ | ⟨a, t⟩
        · rfl
        · rw [hll] at h1
          simp only [List.length_cons] at h1
          omega
      by_cases hr : s.running
      · simp only [step, completeOp, hz, if_false, hr, if_true, schedule]
        by_cases hb : s.useRAF <;> simp_all [InvG]
      · simp only [step, completeOp, hz, if_false, hr, Bool.false_eq_true,
          if_false]
        refine ⟨?_, ?_, ?_, h4, h5⟩ <;> simp_all

theorem invG_run {s : DState} (evs : List Event) (h : InvG s)
    (hok : okTrace s evs = true) : InvG (run evs s) := by
  induction evs generalizing s with
  | nil => exact h
  | cons e es ih =>
    simp only [okTrace, Bool.and_eq_true, Bool.or_eq_true,
      decide_eq_true_eq] at hok
    refine ih (invG_step e h ?_) hok.2
    intro he
    rcases hok.1 with hne | hz
    · exact absurd he (by simpa using hne)
    · exact hz

theorem invG_init (b : Bool) : InvG (init b) := by
  refine ⟨by simp [init], by simp [init], by simp [init], ?_, ?_⟩ <;>
    simp [init]

/-- While the running flag is down, any event other than `start` leaves
the flag down, performs no model call, and registers no new callback
(`next` is bumped only by `schedule`). -/
theorem notRunning_step {s : DState} (e : Event) (hr : s.running = false)
    (hne : e ≠ Event.start) :
    (step e s).running = false ∧ (step e s).modelCalls = s.modelCalls ∧
      (step e s).next = s.next := by
  cases e with
  | start => exact absurd rfl hne
  | stop => simp [step, stopOp]
  | fire hh v =>
    by_cases hm : hh ∈ s.live <;> simp [step, fireOp, hm, hr]
  | complete r =>
    by_cases hz : s.inflight = 0 <;> simp [step, completeOp, hz, hr]

theorem notRunning_run {s : DState} (evs : List Event)
    (hr : s.running = false) (hne : Event.start ∉ evs) :
    (run evs s).running = false ∧ (run evs s).modelCalls = s.modelCalls ∧
      (run evs s).next = s.next := by
  induction evs generalizing s with
  | nil => exact ⟨hr, rfl, rfl⟩
  | cons e es ih =>
    have hne1 : e ≠ Event.start := fun hc => hne (hc ▸ List.mem_cons_self e es)
    have h1 := notRunning_step e hr hne1
    have h2 := ih (s := step e s) h1.1 (fun hc => hne (List.mem_cons_of_mem e hc))
    exact ⟨h2.1, h2.2.1.trans h1.2.1, h2.2.2.trans h1.2.2⟩

/-- Settlement of a model call while the flag is down: cleanup happens
(the in-flight count drops) but no successor is scheduled. -/
theorem complete_notRunning {s : DState} (r : Settle)
    (hr : s.running = false) :
    (step (Event.complete r) s).next = s.next ∧
      (step (Event.complete r) s).inflight = s.inflight - 1 := by
  by_cases hz : s.inflight = 0 <;> simp [step, completeOp, hz, hr]

/-- No event other than `stop` ever lowers the running flag. -/
theorem step_running_of_ne_stop {s : DState} (e : Event)
    (hne : e ≠ Event.stop) (hr : s.running = true) :
    (step e s).running = true := by
  cases e with
  | start => simp [step, startOp, hr]
  | stop => exact absurd rfl hne
  | fire hh v =>
    by_cases hm : hh ∈ s.live
    · by_cases hv : v <;>
        simp [step, fireOp, hm, hr, hv, schedule] <;>
        split <;> simp [hr]
    · simp [step, fireOp, hm, hr]
  | complete r =>
    by_cases hz : s.inflight = 0
    · simp [step, completeOp, hz, hr]
    · simp [step, completeOp, hz, hr, schedule]
      split <;> simp [hr]

/-- `schedule` registers the fresh handle in the field of the
constructed mode. -/
theorem schedule_fields (s : DState) :
    (schedule s).live = s.next :: s.live ∧
      (schedule s).next = s.next + 1 ∧
      (schedule s).running = s.running ∧
      (schedule s).modelCalls = s.modelCalls ∧
      (schedule s).warnings = s.warnings ∧
      (s.useRAF = true → (schedule s).rafId = some s.next) ∧
      (s.useRAF = false → (schedule s).timerId = some s.next) := by
  by_cases hb : s.useRAF <;> simp [schedule, hb]

/-! ## Invariant of the `main.js` stream state -/

/-- The streams with unreleased tracks are exactly the stream currently
held in the `stream` variable, and every handed-out stream id is below
the fresh counter. -/
def MInv (m : MState) : Prop :=
  match m.stream with
  | some k => m.unreleased = [k] ∧ k < m.nextStream
  | none => m.unreleased = []

theorem mInv_stopStream {m : MState} (h : MInv m) : MInv (stopStream m) := by
  unfold MInv stopStream at *
  cases hs : m.stream with
  | none => simpa [hs] using h
  | some k =>
    rw [hs] at h
    simp [hs, h.1]

theorem mInv_startStream {m : MState} (a : Bool) (h : MInv m) :
    MInv (startStream a m) := by
  have h0 := mInv_stopStream h
  have hs : (stopStream m).stream = none := by
    unfold stopStream
    cases hms : m.stream <;> simp [hms]
  unfold MInv at h0
  rw [hs] at h0
  unfold startStream MInv
  by_cases ha : a <;> simp [ha, hs, h0]

theorem mInv_step {m : MState} (e : MEvent) (h : MInv m) :
    MInv (mstep e m) := by
  cases e with
  | start a => exact mInv_startStream a h
  | applyRes c a =>
    simp only [mstep, applyResolution]
    cases hs : m.stream with
    | none => exact mInv_startStream a h
    | some k =>
      cases c with
      | idealOk => exact h
      | exactOk => exact h
      | restart a2 => exact mInv_startStream a2 h
  | stop => exact mInv_stopStream h
  | pagehide => exact mInv_stopStream h

theorem mInv_run (evs : List MEvent) {m : MState} (h : MInv m) :
    MInv (mrun evs m) := by
  induction evs generalizing m with
  | nil => exact h
  | cons e es ih => exact ih (mInv_step e h)

theorem mInv_init : MInv minit := by
  unfold MInv minit
  simp

/-! ## Counting lemmas for the renderer -/

/-- Each above-threshold detection contributes exactly one stroked
rectangle. -/
theorem drawDetection_strokeCount (measure : String → ℚ) (W H : ℚ)
    (box : ℚ × ℚ × ℚ × ℚ) (score classId : ℚ) :
    (drawDetection measure W H box score classId).countP
      DrawCmd.isStrokeRect = 1 := rfl

/-- Over parallel arrays, the number of stroked rectangles equals the
number of scores passing the 0.7 threshold. -/
theorem drawLoop_strokeCount (measure : String → ℚ) (W H : ℚ) :
    ∀ (scores : List ℚ) (boxes : List (ℚ × ℚ × ℚ × ℚ))
      (classes : List ℚ), scores.length = boxes.length →
      scores.length = classes.length →
      (drawLoop measure W H scores boxes classes).countP
          DrawCmd.isStrokeRect
        = scores.countP (fun sc => decide ((7 : ℚ) / 10 ≤ sc)) := by
  intro scores
  induction scores with
  | nil => intro boxes classes _ _; simp [drawLoop]
  | cons sc ss ih =>
    intro boxes classes hb hc
    match boxes, classes with
    | b :: bs, c :: cs =>
      simp only [drawLoop, List.countP_append, List.countP_cons]
      rw [ih bs cs (by simpa using hb) (by simpa using hc)]
      by_cases hsc : (7 : ℚ) / 10 ≤ sc
      · simp [hsc, drawDetection_strokeCount]
        omega
      · simp [hsc]

/-! ## The claims -/

/-- C1: on every exit path of a tick of `Detector.inferOnce` — success,
model-execution failure, or decode failure after the model call — the
input tensor and all model output buffers allocated during the tick are
released before the tick completes: in every reachable state with no
tick in flight, the number of outstanding unreleased intermediate
buffers is zero. -/
theorem claim_C1_no_leaked_buffers (b : Bool) (evs : List Event)
    (h : (run evs (init b)).inflight = 0) :
    (run evs (init b)).outstanding = 0 :=
  ((invU_run evs (invU_init b)).1).trans h

theorem claim_C1_no_leaked_buffers_witness :
    (run [Event.start, Event.fire 0 true, Event.complete Settle.reject]
        (init true)).inflight = 0 ∧
      (run [Event.start, Event.fire 0 true, Event.complete Settle.reject]
        (init true)).outstanding = 0 :=
  ⟨by decide, claim_C1_no_leaked_buffers true
    [Event.start, Event.fire 0 true, Event.complete Settle.reject]
    (by decide)⟩

/-- C2: after `stop()` returns, any sequence of later events that does
not include a `start()` call produces no further model-execution call
and schedules no successor callback (the fresh-handle counter never
moves and the flag stays down); a tick already awaiting its model call
still settles — its in-flight count drops on completion — but
scheduling no successor. -/
theorem claim_C2_stop_cancels (b : Bool) (evs₀ evs : List Event)
    (r : Settle) (hnostart : Event.start ∉ evs) :
    (run evs (step Event.stop (run evs₀ (init b)))).modelCalls
        = (step Event.stop (run evs₀ (init b))).modelCalls ∧
      (run evs (step Event.stop (run evs₀ (init b)))).next
        = (step Event.stop (run evs₀ (init b))).next ∧
      (run evs (step Event.stop (run evs₀ (init b)))).running = false ∧
      (step (Event.complete r) (step Event.stop (run evs₀ (init b)))).next
        = (step Event.stop (run evs₀ (init b))).next ∧
      (step (Event.complete r) (step Event.stop (run evs₀ (init b)))).inflight
        = (step Event.stop (run evs₀ (init b))).inflight - 1 := by
  have hstop : (step Event.stop (run evs₀ (init b))).running = false := rfl
  have h1 := notRunning_run evs hstop hnostart
  have h2 := complete_notRunning r hstop
  exact ⟨h1.2.1, h1.2.2, h1.1, h2.1, h2.2⟩

theorem claim_C2_stop_cancels_witness :
    Event.start ∉
        [Event.fire 1 true, Event.complete Settle.resolveOk, Event.stop] ∧
      (run [Event.fire 1 true, Event.complete Settle.resolveOk, Event.stop]
          (step Event.stop
            (run [Event.start, Event.fire 0 true] (init true)))).modelCalls
        = (step Event.stop
            (run [Event.start, Event.fire 0 true] (init true))).modelCalls :=
  ⟨by decide,
    (claim_C2_stop_cancels true [Event.start, Event.fire 0 true]
      [Event.fire 1 true, Event.complete Settle.resolveOk, Event.stop]
      Settle.resolveOk (by decide)).1⟩

/-- C3 as stated is false: after `stop()` during an in-flight tick
followed by `start()`, the newly scheduled tick can fire while the old
tick's `model.executeAsync` promise is still pending, so two
model-execution calls are outstanding at once. -/
theorem claim_C3_cex :
    ¬ ∀ evs : List Event, (run evs (init true)).inflight ≤ 1 :=
  fun h =>
    absurd
      (h [Event.start, Event.fire 0 true, Event.stop, Event.start,
          Event.fire 1 true])
      (by decide)

/-- C3 (amended): in every execution in which `start()` is only invoked
while no model call is in flight, ticks are strictly sequential — at
most one model-execution call is outstanding at any time, and moreover
at most one tick is pending-or-in-flight, so tick N+1 is scheduled only
after tick N's full body has completed. -/
theorem claim_C3_sequential_ticks (b : Bool) (evs : List Event)
    (hok : okTrace (init b) evs = true) :
    (run evs (init b)).inflight ≤ 1 ∧
      (run evs (init b)).live.length + (run evs (init b)).inflight ≤ 1 := by
  have h := (invG_run evs (invG_init b) hok).1
  exact ⟨by omega, h⟩

theorem claim_C3_sequential_ticks_witness :
    okTrace (init true)
        [Event.start, Event.fire 0 true, Event.complete Settle.reject,
         Event.fire 1 false, Event.fire 2 true,
         Event.complete Settle.resolveOk, Event.stop] = true ∧
      (run [Event.start, Event.fire 0 true, Event.complete Settle.reject,
            Event.fire 1 false, Event.fire 2 true,
            Event.complete Settle.resolveOk, Event.stop]
          (init true)).inflight ≤ 1 :=
  ⟨by decide,
    (claim_C3_sequential_ticks true
      [Event.start, Event.fire 0 true, Event.complete Settle.reject,
       Event.fire 1 false, Event.fire 2 true,
       Event.complete Settle.resolveOk, Event.stop] (by decide)).1⟩

/-- C4: `start()` is idempotent — a second `start()` with no
intervening `stop()` is a no-op on the whole state, and two consecutive
`start()` calls on a fresh detector leave exactly one pending scheduled
tick. -/
theorem claim_C4_start_idempotent (b : Bool) :
    (run [Event.start, Event.start] (init b)).live.length = 1 ∧
      run [Event.start, Event.start] (init b)
        = run [Event.start] (init b) ∧
      ∀ s : DState, step Event.start (step Event.start s)
        = step Event.start s := by
  refine ⟨by cases b <;> decide, by cases b <;> decide, ?_⟩
  intro s
  by_cases hr : s.running
  · simp [step, startOp, hr]
  · simp only [step, startOp, hr, Bool.false_eq_true, if_false]
    by_cases hb : s.useRAF <;> simp [schedule, hb]

theorem claim_C4_start_idempotent_witness :
    (run [Event.start, Event.start] (init true)).live.length = 1 ∧
      step Event.start (step Event.start (init false))
        = step Event.start (init false) :=
  ⟨(claim_C4_start_idempotent true).1,
    (claim_C4_start_idempotent true).2.2 (init false)⟩

/-- C5: in every reachable state a scheduling handle is held iff the
running flag is set; `stop()` clears the flag and both handles in one
synchronous step; and a callback firing after `stop()` is a no-op —
no model call, no successor scheduled, flag still down. -/
theorem claim_C5_handle_running_invariant (b : Bool) (evs : List Event) :
    (((run evs (init b)).rafId ≠ none ∨ (run evs (init b)).timerId ≠ none)
        ↔ (run evs (init b)).running = true) ∧
      (step Event.stop (run evs (init b))).running = false ∧
      (step Event.stop (run evs (init b))).rafId = none ∧
      (step Event.stop (run evs (init b))).timerId = none ∧
      ∀ (h : ℕ) (v : Bool),
        (step (Event.fire h v) (step Event.stop (run evs (init b)))).modelCalls
            = (step Event.stop (run evs (init b))).modelCalls ∧
          (step (Event.fire h v) (step Event.stop (run evs (init b)))).next
            = (step Event.stop (run evs (init b))).next ∧
          (step (Event.fire h v)
              (step Event.stop (run evs (init b)))).running = false := by
  refine ⟨(invU_run evs (invU_init b)).2.1, rfl, rfl, rfl, ?_⟩
  intro h v
  have hstop : (step Event.stop (run evs (init b))).running = false := rfl
  have := notRunning_step (s := step Event.stop (run evs (init b)))
    (Event.fire h v) hstop (by simp)
  exact ⟨this.2.1, this.2.2, this.1⟩

theorem claim_C5_handle_running_invariant_witness :
    (step Event.stop (run [Event.start] (init true))).rafId = none ∧
      (step (Event.fire 0 true)
          (step Event.stop (run [Event.start] (init true)))).modelCalls
        = (step Event.stop (run [Event.start] (init true))).modelCalls :=
  ⟨(claim_C5_handle_running_invariant true [Event.start]).2.2.1,
    ((claim_C5_handle_running_invariant true [Event.start]).2.2.2.2
      0 true).1⟩

/-- C6: a failure inside a tick (the model call rejecting, or the
decode throwing after it resolved) is caught and logged
(`console.warn`, the warning count increments) and treated as a
skipped frame: with the running flag still up the next tick is
scheduled, and no event except an explicit `stop()` ever lowers the
running flag — the loop never stops on its own. -/
theorem claim_C6_failures_skip_frame (s : DState) (r : Settle)
    (hr : s.running = true) (hz : s.inflight ≠ 0)
    (he : r ≠ Settle.resolveOk) :
    (step (Event.complete r) s).running = true ∧
      (step (Event.complete r) s).warnings = s.warnings + 1 ∧
      (step (Event.complete r) s).next = s.next + 1 ∧
      s.next ∈ (step (Event.complete r) s).live ∧
      ∀ (t : DState) (e : Event), e ≠ Event.stop → t.running = true →
        (step e t).running = true := by
  refine ⟨?_, ?_, ?_, ?_, fun t e hne htr => step_running_of_ne_stop e hne htr⟩ <;>
    · simp only [step, completeOp, hz, if_false, hr, if_true]
      by_cases hb : s.useRAF <;> simp [schedule, hb, hr, he]

theorem claim_C6_failures_skip_frame_witness :
    (run [Event.start, Event.fire 0 true] (init true)).running = true ∧
      (run [Event.start, Event.fire 0 true] (init true)).inflight ≠ 0 ∧
      (step (Event.complete Settle.reject)
          (run [Event.start, Event.fire 0 true] (init true))).warnings
        = (run [Event.start, Event.fire 0 true] (init true)).warnings + 1 ∧
      (step (Event.fire 5 true)
          (run [Event.start, Event.fire 0 true] (init true))).running = true :=
  ⟨by decide, by decide,
    (claim_C6_failures_skip_frame
      (run [Event.start, Event.fire 0 true] (init true)) Settle.reject
      (by decide) (by decide) (by decide)).2.1,
    (claim_C6_failures_skip_frame
      (run [Event.start, Event.fire 0 true] (init true)) Settle.reject
      (by decide) (by decide) (by decide)).2.2.2.2
      (run [Event.start, Event.fire 0 true] (init true))
      (Event.fire 5 true) (by simp) (by decide)⟩

/-- C7: a tick firing while the video source is not ready
(`readyState < 2`) performs no model-execution call and still
reschedules the next tick through the configured scheduling strategy:
the call count is unchanged, a fresh callback is registered, the number
of pending callbacks is unchanged, and the fresh handle is recorded in
the field of the constructed mode. -/
theorem claim_C7_not_ready_skips (s : DState) (h : ℕ)
    (hr : s.running = true) (hm : h ∈ s.live) :
    (step (Event.fire h false) s).modelCalls = s.modelCalls ∧
      (step (Event.fire h false) s).next = s.next + 1 ∧
      s.next ∈ (step (Event.fire h false) s).live ∧
      (step (Event.fire h false) s).live.length = s.live.length ∧
      (s.useRAF = true → (step (Event.fire h false) s).rafId = some s.next) ∧
      (s.useRAF = false →
        (step (Event.fire h false) s).timerId = some s.next) := by
  have hlen := List.length_erase_of_mem hm
  have hpos : 0 < s.live.length := List.length_pos_of_mem hm
  simp only [step, fireOp, hm, if_true, hr, if_true, Bool.false_eq_true,
    if_false]
  by_cases hb : s.useRAF <;> simp [schedule, hb, hlen] <;> omega

theorem claim_C7_not_ready_skips_witness :
    (run [Event.start] (init true)).running = true ∧
      0 ∈ (run [Event.start] (init true)).live ∧
      (step (Event.fire 0 false) (run [Event.start] (init true))).modelCalls
        = (run [Event.start] (init true)).modelCalls ∧
      (step (Event.fire 0 false) (run [Event.start] (init true))).next
        = (run [Event.start] (init true)).next + 1 :=
  ⟨by decide, by decide,
    (claim_C7_not_ready_skips (run [Event.start] (init true)) 0
      (by decide) (by decide)).1,
    (claim_C7_not_ready_skips (run [Event.start] (init true)) 0
      (by decide) (by decide)).2.1⟩

/-- C8: with `boxes = [[0.1, 0.2, 0.5, 0.6]]`, `scores = [0.95]`,
`classIds = [3]` and a 640×480 surface, `drawBoundingBoxes` draws
exactly one rectangle, at pixel bounds x = 128, y = 48, width = 256,
height = 192, and its label text is `"Class 3: 95.0%"` — containing
`"Class 3"` and `"95.0%"`. -/
theorem claim_C8_single_box_pixels (measure : String → ℚ) :
    (drawBoundingBoxes true measure 640 480
        [(1 / 10, 1 / 5, 1 / 2, 3 / 5)] [19 / 20] [3]).filter
        DrawCmd.isStrokeRect
      = [DrawCmd.strokeRect 128 48 256 192] ∧
    DrawCmd.fillText (labelFor 3 (19 / 20)) 133 41 ∈
      drawBoundingBoxes true measure 640 480
        [(1 / 10, 1 / 5, 1 / 2, 3 / 5)] [19 / 20] [3] ∧
    labelFor 3 (19 / 20) = "Class 3: 95.0%" ∧
    "Class 3".data <:+: (labelFor 3 (19 / 20)).data ∧
    "95.0%".data <:+: (labelFor 3 (19 / 20)).data := by
  have hlabel : labelFor 3 (19 / 20) = "Class 3: 95.0%" := by
    have h1 : jsRound 3 = 3 := by norm_num [jsRound, Int.floor_eq_iff]
    have h2 : (⌊(19 : ℚ) / 20 * 100 * 10 + 1 / 2⌋ : ℤ) = 950 := by
      norm_num [Int.floor_eq_iff]
    rw [labelFor, toFixed1, h1, h2]
    decide
  refine ⟨?_, ?_, hlabel, ?_, ?_⟩
  · norm_num [drawBoundingBoxes, drawLoop, drawDetection, List.filter,
      DrawCmd.isStrokeRect]
  · norm_num [drawBoundingBoxes, drawLoop, drawDetection]
  · rw [hlabel]; decide
  · rw [hlabel]; decide

theorem claim_C8_single_box_pixels_witness :
    (drawBoundingBoxes true (fun _ => 50) 640 480
        [(1 / 10, 1 / 5, 1 / 2, 3 / 5)] [19 / 20] [3]).filter
        DrawCmd.isStrokeRect
      = [DrawCmd.strokeRect 128 48 256 192] ∧
    labelFor 3 (19 / 20) = "Class 3: 95.0%" :=
  ⟨(claim_C8_single_box_pixels (fun _ => 50)).1,
    (claim_C8_single_box_pixels (fun _ => 50)).2.2.1⟩

/-- C9: `drawBoundingBoxes` always issues a full clear of the render
surface as its first command, draws one rectangle per detection whose
score meets the default threshold 0.7 and none for the others, and in
particular with `scores = [0.5]` the output is exactly the clear with
zero rectangles. -/
theorem claim_C9_clear_then_threshold (measure : String → ℚ) (W H : ℚ)
    (boxes : List (ℚ × ℚ × ℚ × ℚ)) (scores classes : List ℚ)
    (h1 : scores.length = boxes.length)
    (h2 : scores.length = classes.length) :
    (drawBoundingBoxes true measure W H boxes scores classes).head?
        = some (DrawCmd.clearRect 0 0 W H) ∧
      (drawBoundingBoxes true measure W H boxes scores classes).countP
          DrawCmd.isStrokeRect
        = scores.countP (fun sc => decide ((7 : ℚ) / 10 ≤ sc)) ∧
      ∀ (box : ℚ × ℚ × ℚ × ℚ) (classId : ℚ),
        drawBoundingBoxes true measure W H [box] [(1 : ℚ) / 2] [classId]
          = [DrawCmd.clearRect 0 0 W H] := by
  refine ⟨rfl, ?_, ?_⟩
  · simp only [drawBoundingBoxes, if_true, List.countP_cons,
      DrawCmd.isStrokeRect, Bool.false_eq_true, if_false]
    simpa using drawLoop_strokeCount measure W H scores boxes classes h1 h2
  · intro box classId
    simp [drawBoundingBoxes, drawLoop]
    intro hc
    exact absurd hc (by norm_num)

theorem claim_C9_clear_then_threshold_witness :
    ([(19 : ℚ) / 20, 3 / 10].length
        = [((0 : ℚ), (0 : ℚ), (1 : ℚ), (1 : ℚ)),
           ((0 : ℚ), (0 : ℚ), (1 : ℚ), (1 : ℚ))].length) ∧
      (drawBoundingBoxes true (fun _ => 0) 640 480
          [((0 : ℚ), (0 : ℚ), (1 : ℚ), (1 : ℚ)),
           ((0 : ℚ), (0 : ℚ), (1 : ℚ), (1 : ℚ))]
          [(19 : ℚ) / 20, 3 / 10] [(1 : ℚ), 2]).countP
          DrawCmd.isStrokeRect
        = [(19 : ℚ) / 20, 3 / 10].countP
            (fun sc => decide ((7 : ℚ) / 10 ≤ sc)) :=
  ⟨rfl,
    (claim_C9_clear_then_threshold (fun _ => 0) 640 480
      [((0 : ℚ), (0 : ℚ), (1 : ℚ), (1 : ℚ)),
       ((0 : ℚ), (0 : ℚ), (1 : ℚ), (1 : ℚ))]
      [(19 : ℚ) / 20, 3 / 10] [(1 : ℚ), 2] rfl rfl).2.1⟩

/-- C10: at most one camera stream session is active at any time —
after any sequence of `main.js` operations at most one acquired stream
has unreleased tracks, the unreleased streams are exactly the one held
in the `stream` variable, and `startStream` stops and releases the
previously held stream's tracks before (and regardless of) acquiring a
new one. -/
theorem claim_C10_single_stream_session (evs : List MEvent) :
    (mrun evs minit).unreleased.length ≤ 1 ∧
      (∀ k, (mrun evs minit).stream = some k →
        (mrun evs minit).unreleased = [k] ∧
          ∀ a : Bool, k ∉ (startStream a (mrun evs minit)).unreleased ∧
            (startStream a (mrun evs minit)).stream ≠ some k) ∧
      ((mrun evs minit).stream = none → (mrun evs minit).unreleased = []) := by
  have hinv := mInv_run evs mInv_init
  unfold MInv at hinv
  refine ⟨?_, ?_, ?_⟩
  · cases hs : (mrun evs minit).stream with
    | none => rw [hs] at hinv; simp [hinv]
    | some k => rw [hs] at hinv; simp [hinv.1]
  · intro k hs
    rw [hs] at hinv
    have hk := hinv.2
    refine ⟨hinv.1, ?_⟩
    intro a
    have hnil : (stopStream (mrun evs minit)).unreleased = [] := by
      unfold stopStream
      rw [hs]
      simp [hinv.1]
    have hnext : (stopStream (mrun evs minit)).nextStream
        = (mrun evs minit).nextStream := by
      unfold stopStream
      rw [hs]
    have hsnone : (stopStream (mrun evs minit)).stream = none := by
      unfold stopStream
      rw [hs]
    by_cases ha : a
    · subst ha
      constructor
      · simp only [startStream, if_true, List.mem_cons, hnil,
          List.not_mem_nil, or_false]
        rw [hnext]
        omega
      · simp only [startStream, if_true, ne_eq, Option.some.injEq]
        rw [hnext]
        omega
    · simp only [Bool.not_eq_true] at ha
      subst ha
      constructor
      · simp [startStream, hnil]
      · simp only [startStream, Bool.false_eq_true, if_false, hsnone]
        simp
  · intro hs
    rw [hs] at hinv
    exact hinv

theorem claim_C10_single_stream_session_witness :
    (mrun [MEvent.start true] minit).stream = some 0 ∧
      (mrun [MEvent.start true] minit).unreleased = [0] ∧
      0 ∉ (startStream true (mrun [MEvent.start true] minit)).unreleased :=
  ⟨by decide,
    ((claim_C10_single_stream_session [MEvent.start true]).2.1 0
      (by decide)).1,
    (((claim_C10_single_stream_session [MEvent.start true]).2.1 0
      (by decide)).2 true).1⟩

end WebcamReso
